import Mathlib

/-!
Verification of the pkgsite ingestion-and-overwrite core.

Shallow embedding of:
* `internal/raw_latest.go` — `RawLatestInfo`, `PopulateModule`, `isDeprecated`,
  `isRetracted`;
* the semantic-version comparator `golang.org/x/mod/semver.Compare` that
  `isRetracted` calls (embedded from the library's documented algorithm:
  parse `vMAJOR[.MINOR[.PATCH]][-PRERELEASE][+BUILD]`, an invalid version is
  less than any valid one, numeric components compare numerically, prerelease
  identifiers per SemVer precedence, build metadata ignored);
* the comment-attachment view of `golang.org/x/mod/modfile` needed by
  `isDeprecated` (a module declaration line carries `Before` and `Suffix`
  comment lists, each comment a token string);
* the VersionStore replace/validation protocol and the error taxonomy, which
  are exercised by `internal/worker/refetch_test.go` but whose implementation
  is outside the given sources; those parts are modelled from the spec and
  are marked as such.

Strings are processed through `String.toList`; Go's byte-wise operations on
the relevant ASCII inputs coincide with the character-wise ones used here.
-/

namespace Pkgsite

/-! ### Semantic versions (`golang.org/x/mod/semver`) -/

/-- Go `isIdentChar`: ASCII letters, digits and `-`. -/
def isIdentChar (c : Char) : Bool :=
  ('A' ≤ c ∧ c ≤ 'Z') ∨ ('a' ≤ c ∧ c ≤ 'z') ∨ ('0' ≤ c ∧ c ≤ '9') ∨ c = '-'

/-- Go `isNum`: every character is an ASCII digit. -/
def isNum (v : List Char) : Bool :=
  v.all Char.isDigit

/-- Go `isBadNum`: all digits, longer than one character, leading zero. -/
def isBadNum (v : List Char) : Bool :=
  v.all Char.isDigit ∧ v.length > 1 ∧ v.headI = '0'

/-- Longest digit run at the front, with the remainder. -/
def takeDigits : List Char → List Char × List Char
  | [] => ([], [])
  | c :: cs =>
    if c.isDigit then
      let (d, r) := takeDigits cs
      (c :: d, r)
    else ([], c :: cs)

/-- Go `parseInt`: a nonempty digit run with no leading zero (except `0`
itself), returned together with the rest of the input. -/
def parseInt (v : List Char) : Option (List Char × List Char) :=
  match v with
  | [] => none
  | c :: cs =>
    if c.isDigit then
      let (d, r) := takeDigits cs
      if c = '0' ∧ d ≠ [] then none
      else some (c :: d, r)
    else none

/-- Split at every `.` (segments may be empty). -/
def splitDot : List Char → List (List Char)
  | [] => [[]]
  | c :: cs =>
    match splitDot cs with
    | [] => [[c]]
    | s :: ss => if c = '.' then [] :: s :: ss else (c :: s) :: ss

/-- Go `parsePrerelease`: a `-` followed by dot-separated identifiers of ident
characters, each nonempty and not a number with a leading zero; stops at `+`.
Returns the consumed text (with its `-`) and the rest. -/
def parsePrerelease (v : List Char) : Option (List Char × List Char) :=
  match v with
  | '-' :: w =>
    let body := w.takeWhile (fun c => c ≠ '+')
    let rest := w.dropWhile (fun c => c ≠ '+')
    if (splitDot body).all (fun s => s ≠ [] ∧ s.all isIdentChar ∧ ¬ isBadNum s) then
      some ('-' :: body, rest)
    else none
  | _ => none

/-- Go `parseBuild`: a `+` followed by dot-separated nonempty identifier
segments, consuming the whole remaining input. -/
def parseBuild (v : List Char) : Option (List Char × List Char) :=
  match v with
  | '+' :: w =>
    if (splitDot w).all (fun s => s ≠ [] ∧ s.all isIdentChar) then
      some ('+' :: w, [])
    else none
  | _ => none

/-- The result of Go `parse`: the textual major/minor/patch digit strings and
the prerelease and build suffixes. -/
structure Parsed where
  major : List Char
  minor : List Char
  patch : List Char
  prerelease : List Char
  build : List Char
deriving DecidableEq, Repr

/-- The optional `-prerelease+build` tail after the patch component. -/
def parseTail (v : List Char) : Option (List Char × List Char) :=
  match v with
  | [] => some ([], [])
  | '-' :: _ =>
    match parsePrerelease v with
    | none => none
    | some (pre, rest) =>
      match rest with
      | [] => some (pre, [])
      | '+' :: _ =>
        match parseBuild rest with
        | none => none
        | some (b, rest2) => if rest2 = [] then some (pre, b) else none
      | _ => none
  | '+' :: _ =>
    match parseBuild v with
    | none => none
    | some (b, rest2) => if rest2 = [] then some ([], b) else none
  | _ => none

/-- Go `semver.parse`: `v` prefix, then major, optional `.minor`, optional
`.patch` (missing components default to `0`), optional prerelease and build;
nothing may remain. -/
def parse (v : List Char) : Option Parsed :=
  match v with
  | 'v' :: v1 =>
    match parseInt v1 with
    | none => none
    | some (maj, v2) =>
      match v2 with
      | [] => some ⟨maj, ['0'], ['0'], [], []⟩
      | '.' :: v3 =>
        match parseInt v3 with
        | none => none
        | some (mnr, v4) =>
          match v4 with
          | [] => some ⟨maj, mnr, ['0'], [], []⟩
          | '.' :: v5 =>
            match parseInt v5 with
            | none => none
            | some (pat, v6) =>
              match parseTail v6 with
              | none => none
              | some (pre, b) => some ⟨maj, mnr, pat, pre, b⟩
          | _ => none
      | _ => none
  | _ => none

/-- Go string `<` on the relevant ASCII data: character-wise lexicographic. -/
def ltChars : List Char → List Char → Bool
  | [], [] => false
  | [], _ :: _ => true
  | _ :: _, [] => false
  | a :: as, b :: bs => if a < b then true else if b < a then false else ltChars as bs

/-- Go `compareInt`: digit strings compared by length, then lexically. -/
def compareInt (x y : List Char) : Int :=
  if x = y then 0
  else if x.length < y.length then -1
  else if y.length < x.length then 1
  else if ltChars x y then -1 else 1

/-- Go `nextIdent`: the segment before the first `.`, and the rest. -/
def nextIdent (x : List Char) : List Char × List Char :=
  (x.takeWhile (fun c => c ≠ '.'), x.dropWhile (fun c => c ≠ '.'))

/-- The loop of Go `comparePrerelease`: on each round skip the separator
(`-` or `.`), take one identifier from each side, and compare — numeric
identifiers sort before alphanumeric ones and among themselves by value
(length, then lexically); an exhausted side sorts first. -/
def comparePrereleaseLoop (x y : List Char) : Int :=
  match x, y with
  | _ :: xs, _ :: ys =>
    let dx := (nextIdent xs).1
    let x1 := (nextIdent xs).2
    let dy := (nextIdent ys).1
    let y1 := (nextIdent ys).2
    if dx ≠ dy then
      if isNum dx ≠ isNum dy then (if isNum dx then -1 else 1)
      else if isNum dx ∧ dx.length ≠ dy.length then
        (if dx.length < dy.length then -1 else 1)
      else (if ltChars dx dy then -1 else 1)
    else comparePrereleaseLoop x1 y1
  | [], _ => -1
  | _ :: _, [] => 1
termination_by x.length
decreasing_by
  simp only [nextIdent]
  exact Nat.lt_succ_of_le (List.dropWhile_suffix _).length_le

/-- Go `comparePrerelease`: a version without prerelease is greater than one
with. -/
def comparePrerelease (x y : List Char) : Int :=
  if x = y then 0
  else if x = [] then 1
  else if y = [] then -1
  else comparePrereleaseLoop x y

namespace semver

/-- Go `semver.Compare`: parse both versions (an invalid one is less than a
valid one, two invalid ones are equal) and compare major, minor, patch, then
prerelease. -/
def Compare (v w : String) : Int :=
  match parse v.toList, parse w.toList with
  | none, none => 0
  | none, some _ => -1
  | some _, none => 1
  | some pv, some pw =>
    if compareInt pv.major pw.major ≠ 0 then compareInt pv.major pw.major
    else if compareInt pv.minor pw.minor ≠ 0 then compareInt pv.minor pw.minor
    else if compareInt pv.patch pw.patch ≠ 0 then compareInt pv.patch pw.patch
    else comparePrerelease pv.prerelease pw.prerelease

end semver

/-! ### The manifest view (`golang.org/x/mod/modfile`)

`isDeprecated` reads `mf.Module.Syntax.Before` and `mf.Module.Syntax.Suffix`,
the comment lists attached to the module declaration line, each comment
carrying its raw token text; `isRetracted` reads `mf.Retract`, the list of
retract directives, each an inclusive version interval with a rationale. -/

/-- A source comment; `Token` is the raw text including the `//` marker. -/
structure Comment where
  Token : String
deriving DecidableEq, Repr

/-- The comment attachment of the module declaration's source line:
the comments on the lines immediately before it, and the trailing comments
on the same line. -/
structure DeclLine where
  Before : List Comment
  Suffix : List Comment
deriving DecidableEq, Repr

/-- The module declaration node (`modfile.File.Module`), reduced to the
comment-bearing source line that `isDeprecated` inspects. -/
structure ModuleDecl where
  SyntaxLine : DeclLine
deriving DecidableEq, Repr

/-- One `retract` directive: an inclusive version interval plus rationale. -/
structure Retract where
  Low : String
  High : String
  Rationale : String
deriving DecidableEq, Repr

/-- The parsed go.mod file, reduced to the fields read by the lifecycle
analysis: the optional module declaration and the retract directives in
file order. -/
structure File where
  Module : Option ModuleDecl
  Retract : List Retract
deriving DecidableEq, Repr

/-! ### Go string helpers (package `strings`), on character lists -/

/-- `unicode.IsSpace` on the Latin-1 range (all inputs here are ASCII). -/
def isSpaceGo (c : Char) : Bool :=
  c = ' ' ∨ c = '\t' ∨ c = '\n' ∨ c = Char.ofNat 11 ∨ c = Char.ofNat 12 ∨
    c = '\r' ∨ c = Char.ofNat 0x85 ∨ c = Char.ofNat 0xA0

/-- `strings.TrimSpace`: drop leading and trailing white space. -/
def trimSpace (l : List Char) : List Char :=
  ((l.dropWhile isSpaceGo).reverse.dropWhile isSpaceGo).reverse

/-- `strings.TrimPrefix`: drop `p` from the front of `l` when it is there. -/
def trimPre (p l : List Char) : List Char :=
  if p.isPrefixOf l then l.drop p.length else l

/-! ### `internal/raw_latest.go` -/

/-- The `"Deprecated:"` marker (`const prefix` in `isDeprecated`). -/
def deprecatedMarker : List Char := "Deprecated:".toList

/-- One comment's text after stripping the `//` marker and surrounding
white space, as computed inside `isDeprecated`'s loop. -/
def commentText (c : Comment) : List Char :=
  trimSpace (trimPre "//".toList c.Token.toList)

/-- The loop of `isDeprecated` over `Before ++ Suffix`: the first comment
whose text starts with `"Deprecated:"` wins, and the result is the trimmed
text after the marker. -/
def findDeprecated : List Comment → Bool × String
  | [] => (false, "")
  | c :: cs =>
    if deprecatedMarker.isPrefixOf (commentText c) then
      (true, String.mk (trimSpace ((commentText c).drop deprecatedMarker.length)))
    else findDeprecated cs

/-- `isDeprecated` from `internal/raw_latest.go`: whether the go.mod
deprecates the module, with the text after `"Deprecated:"`. -/
def isDeprecated (mf : File) : Bool × String :=
  match mf.Module with
  | none => (false, "")
  | some m => findDeprecated (m.SyntaxLine.Before ++ m.SyntaxLine.Suffix)

/-- The containment test of `isRetracted`'s loop: the resolved version lies
in the directive's inclusive interval under semantic-version comparison. -/
def inRange (resolvedVersion : String) (r : Retract) : Prop :=
  semver.Compare resolvedVersion r.Low ≥ 0 ∧ semver.Compare resolvedVersion r.High ≤ 0

instance (v : String) (r : Retract) : Decidable (inRange v r) :=
  inferInstanceAs (Decidable (_ ∧ _))

/-- The loop of `isRetracted` over `mf.Retract`: the first directive whose
inclusive interval contains the resolved version wins. -/
def findRetract (resolvedVersion : String) : List Retract → Bool × String
  | [] => (false, "")
  | r :: rs =>
    if inRange resolvedVersion r then (true, r.Rationale)
    else findRetract resolvedVersion rs

/-- `isRetracted` from `internal/raw_latest.go`: whether the go.mod file
retracts the version, with the rationale. -/
def isRetracted (mf : File) (resolvedVersion : String) : Bool × String :=
  findRetract resolvedVersion mf.Retract

/-! ### The module record and `PopulateModule` -/

/-- License metadata of one license file. -/
structure LicenseMeta where
  Types : List String
  FilePath : String
deriving DecidableEq, Repr

/-- A readme: file path and contents. -/
structure Readme where
  Filepath : String
  Contents : String
deriving DecidableEq, Repr

/-- Rendered documentation for one build target. -/
structure Documentation where
  Synopsis : String
  Body : String
  GOOS : String
  GOARCH : String
deriving DecidableEq, Repr

/-- Modelled from the spec: a UnitRecord — one documentable unit of a module
version, with path, name, commit time, redistributable flag, source-location
descriptor, license metadata, optional readme and optional documentation
(the `internal.Unit` type is not among the given sources; the fields follow
the spec's data model and the literal record in `refetch_test.go`). -/
structure UnitRecord where
  Path : String
  Name : String
  CommitTime : Nat
  IsRedistributable : Bool
  SourceInfo : String
  Licenses : List LicenseMeta
  Readme : Option Readme
  Documentation : Option Documentation
deriving DecidableEq, Repr

/-- Modelled from the spec: the module-version record (`internal.Module` is
not among the given sources). It carries the identity key, representative
non-lifecycle metadata, the unit set, and the four lifecycle fields that
`PopulateModule` writes. -/
structure Module where
  ModulePath : String
  Version : String
  CommitTime : Nat
  IsRedistributable : Bool
  HasGoMod : Bool
  Units : List UnitRecord
  Deprecated : Bool
  DeprecationComment : String
  Retracted : Bool
  RetractionRationale : String
deriving DecidableEq, Repr

/-- `RawLatestInfo` from `internal/raw_latest.go`: the raw latest version of
a module and its go.mod file. -/
structure RawLatestInfo where
  ModulePath : String
  Version : String
  GoModFile : File
deriving DecidableEq, Repr

/-- `PopulateModule` from `internal/raw_latest.go`: writes the deprecation
fields from the raw latest go.mod and the retraction fields from that
go.mod evaluated at the populated module's own version. -/
def PopulateModule (r : RawLatestInfo) (m : Module) : Module :=
  { m with
    Deprecated := (isDeprecated r.GoModFile).1
    DeprecationComment := (isDeprecated r.GoModFile).2
    Retracted := (isRetracted r.GoModFile m.Version).1
    RetractionRationale := (isRetracted r.GoModFile m.Version).2 }

/-- The derived lifecycle status of the spec's data model. -/
structure LifecycleStatus where
  deprecated : Bool
  deprecationReason : String
  retracted : Bool
  retractionReason : String
deriving DecidableEq, Repr

/-- The spec's `AnalyzeLifecycle`: the pair of computations performed by
`PopulateModule`, as a function of the manifest and the resolved version. -/
def AnalyzeLifecycle (mf : File) (resolvedVersion : String) : LifecycleStatus :=
  ⟨(isDeprecated mf).1, (isDeprecated mf).2,
   (isRetracted mf resolvedVersion).1, (isRetracted mf resolvedVersion).2⟩

/-! ### Error taxonomy and the VersionStore (modelled from the spec) -/

/-- Modelled from the spec: the closed error-kind enumeration of §7 — the
implementation's sentinel values (`derrors.DBModuleInsertInvalid` among
them) are not among the given sources. `ValidationRejected` is the
"insert invalid" condition. -/
inductive IngestError where
  | FetchFailed
  | ExtractionFailed
  | ValidationRejected
  | StorageUnavailable
deriving DecidableEq, Repr

/-- Modelled from the spec: `errors.Is` against a sentinel is a stable
identity/kind comparison on the closed error enumeration. -/
def errorIs (e target : IngestError) : Bool :=
  e = target

/-- A store key: (module path, version). -/
abbrev StoreKey := String × String

/-- Modelled from the spec: the VersionStore state — a finite map from keys
to the last validated unit set, as an association list without duplicate
keys among the live entries (the newest entry for a key shadows none since
`Replace` erases the old one). -/
structure VersionStore where
  entries : List (StoreKey × List UnitRecord)
deriving DecidableEq, Repr

/-- The unit set currently visible for a key, if any. -/
def lookupStore (s : VersionStore) (k : StoreKey) : Option (List UnitRecord) :=
  (s.entries.find? (fun e => decide (e.1 = k))).map (fun e => e.2)

/-- Modelled from the spec: the degeneracy check of §4.3 — the candidate
set is structurally degenerate when it is empty (the spec's §9 leaves the
full predicate open beyond "must not regress a valid non-trivial set to an
empty/invalid one"). -/
def degenerate (cand : List UnitRecord) : Bool :=
  cand.isEmpty

/-- Modelled from the spec: `Replace(key, candidateUnits)` of §4.3 — if the
key was previously stored with a non-empty unit set and the candidate set
is degenerate, fail with `ValidationRejected`; otherwise the new unit set
replaces the old one wholesale. -/
def Replace (s : VersionStore) (k : StoreKey) (cand : List UnitRecord) :
    Except IngestError VersionStore :=
  match lookupStore s k with
  | some prior =>
    if degenerate cand ∧ ¬ prior.isEmpty then .error .ValidationRejected
    else .ok ⟨(k, cand) :: s.entries.filter (fun e => decide (¬ e.1 = k))⟩
  | none => .ok ⟨(k, cand) :: s.entries.filter (fun e => decide (¬ e.1 = k))⟩

/-- The state transition a `Replace` call induces: on success the new store,
on failure the old store together with the error. -/
def replaceStep (s : VersionStore) (k : StoreKey) (cand : List UnitRecord) :
    VersionStore × Option IngestError :=
  match Replace s k cand with
  | .ok s1 => (s1, none)
  | .error e => (s, some e)

/-! ### Helper lemmas -/

theorem findDeprecated_of_no_match (cs : List Comment)
    (h : ∀ c ∈ cs, deprecatedMarker.isPrefixOf (commentText c) = false) :
    findDeprecated cs = (false, "") := by
  induction cs with
  | nil => rfl
  | cons c cs ih =>
    rw [findDeprecated, if_neg (by simp [h c (List.mem_cons_self c cs)])]
    exact ih fun c' h' => h c' (List.mem_cons_of_mem _ h')

theorem findDeprecated_first (pre : List Comment) (c : Comment) (post : List Comment)
    (hpre : ∀ c' ∈ pre, deprecatedMarker.isPrefixOf (commentText c') = false)
    (hc : deprecatedMarker.isPrefixOf (commentText c) = true) :
    findDeprecated (pre ++ c :: post) =
      (true, String.mk (trimSpace ((commentText c).drop deprecatedMarker.length))) := by
  induction pre with
  | nil => rw [List.nil_append, findDeprecated, if_pos (by simp [hc])]
  | cons p pre ih =>
    rw [List.cons_append, findDeprecated,
      if_neg (by simp [hpre p (List.mem_cons_self p pre)])]
    exact ih fun c' h' => hpre c' (List.mem_cons_of_mem _ h')

theorem findRetract_of_no_match (v : String) (rs : List Retract)
    (h : ∀ r ∈ rs, ¬ inRange v r) :
    findRetract v rs = (false, "") := by
  induction rs with
  | nil => rfl
  | cons r rs ih =>
    rw [findRetract, if_neg (h r (List.mem_cons_self r rs))]
    exact ih fun r' h' => h r' (List.mem_cons_of_mem _ h')

theorem findRetract_first (v : String) (pre : List Retract) (r : Retract)
    (post : List Retract) (hpre : ∀ r' ∈ pre, ¬ inRange v r') (hr : inRange v r) :
    findRetract v (pre ++ r :: post) = (true, r.Rationale) := by
  induction pre with
  | nil => rw [List.nil_append, findRetract, if_pos hr]
  | cons p pre ih =>
    rw [List.cons_append, findRetract, if_neg (hpre p (List.mem_cons_self p pre))]
    exact ih fun r' h' => hpre r' (List.mem_cons_of_mem _ h')

theorem replace_ok_shape (s : VersionStore) (k : StoreKey) (c : List UnitRecord)
    (s1 : VersionStore) (h : Replace s k c = .ok s1) :
    s1 = ⟨(k, c) :: s.entries.filter (fun e => decide (¬ e.1 = k))⟩ := by
  unfold Replace at h
  cases hl : lookupStore s k with
  | none => rw [hl] at h; exact (Except.ok.inj h).symm
  | some prior =>
    rw [hl] at h
    dsimp only at h
    by_cases hd : degenerate c ∧ ¬ prior.isEmpty
    · rw [if_pos hd] at h; exact absurd h (by simp)
    · rw [if_neg hd] at h; exact (Except.ok.inj h).symm

theorem lookupStore_replace_ok (s : VersionStore) (k : StoreKey) (c : List UnitRecord)
    (s1 : VersionStore) (h : Replace s k c = .ok s1) :
    lookupStore s1 k = some c := by
  rw [replace_ok_shape s k c s1 h]
  simp [lookupStore]

theorem filter_entries_idem (l : List (StoreKey × List UnitRecord)) (k : StoreKey) :
    (l.filter (fun e => decide (¬ e.1 = k))).filter (fun e => decide (¬ e.1 = k)) =
      l.filter (fun e => decide (¬ e.1 = k)) := by
  induction l with
  | nil => rfl
  | cons a l ih => by_cases h : a.1 = k <;> simp [List.filter_cons, h, ih]

theorem replace_nonempty_ok (s : VersionStore) (k : StoreKey) (c : List UnitRecord)
    (hc : c ≠ []) :
    Replace s k c = .ok ⟨(k, c) :: s.entries.filter (fun e => decide (¬ e.1 = k))⟩ := by
  unfold Replace
  cases lookupStore s k with
  | none => rfl
  | some prior =>
    dsimp only
    rw [if_neg (fun hdp => absurd hdp.1 (by simp [degenerate, hc]))]

theorem replace_idem_aux (s : VersionStore) (k : StoreKey) (c : List UnitRecord)
    (s1 : VersionStore) (h : Replace s k c = .ok s1) : Replace s1 k c = .ok s1 := by
  have hs := replace_ok_shape s k c s1 h
  have hl : lookupStore s1 k = some c := lookupStore_replace_ok s k c s1 h
  unfold Replace
  rw [hl]
  dsimp only
  rw [if_neg (fun hh : degenerate c ∧ ¬ c.isEmpty => hh.2 hh.1)]
  subst hs
  simp [List.filter_cons, filter_entries_idem]

/-! ### The claims -/

/-- C1: for a key previously stored with a non-empty unit set, a replace
with an empty/degenerate candidate set returns the `ValidationRejected`
("insert invalid") error, the state is left exactly as it was (the
rejection is not a state transition), and the key's previously stored unit
set is still visible unchanged. -/
theorem degenerate_reingest_rejected (s : VersionStore) (k : StoreKey)
    (prior cand : List UnitRecord) (h : lookupStore s k = some prior)
    (hne : prior ≠ []) (hc : degenerate cand = true) :
    replaceStep s k cand = (s, some IngestError.ValidationRejected) ∧
    lookupStore (replaceStep s k cand).1 k = some prior := by
  have hrep : Replace s k cand = .error .ValidationRejected := by
    unfold Replace
    rw [h]
    dsimp only
    rw [if_pos ⟨hc, by simp [hne]⟩]
  refine ⟨?_, ?_⟩ <;> rw [replaceStep, hrep]
  exact h

/-- Witness for C1 at a concrete one-entry store and an empty candidate. -/
theorem degenerate_reingest_rejected_witness :
    replaceStep ⟨[(("m", "v1.0.0"),
        [(⟨"m/foo", "foo", 0, true, "gh", [], none, none⟩ : UnitRecord)])]⟩
      ("m", "v1.0.0") [] =
      (⟨[(("m", "v1.0.0"),
        [(⟨"m/foo", "foo", 0, true, "gh", [], none, none⟩ : UnitRecord)])]⟩,
       some IngestError.ValidationRejected) :=
  (degenerate_reingest_rejected
    ⟨[(("m", "v1.0.0"),
      [(⟨"m/foo", "foo", 0, true, "gh", [], none, none⟩ : UnitRecord)])]⟩
    ("m", "v1.0.0")
    [⟨"m/foo", "foo", 0, true, "gh", [], none, none⟩] []
    rfl (by decide) rfl).1

/-- C2: a valid re-ingestion fully supersedes the prior record — after
storing `{a}` for a key, replacing with the valid candidate set `{a2, b}`
succeeds and leaves exactly `{a2, b}` visible: `a`'s metadata is the fresh
record `a2`, `b` is newly visible with its full record (readme, docs,
licenses are fields of the record), and no unit outside the new candidate
set remains visible. -/
theorem valid_reingest_supersedes (s s1 : VersionStore) (k : StoreKey)
    (a a2 b : UnitRecord) (h1 : Replace s k [a] = .ok s1) :
    ∃ s2, Replace s1 k [a2, b] = .ok s2 ∧
      lookupStore s2 k = some [a2, b] ∧
      b ∈ (lookupStore s2 k).getD [] ∧
      ∀ u ∈ (lookupStore s2 k).getD [], u = a2 ∨ u = b := by
  refine ⟨_, replace_nonempty_ok s1 k [a2, b] (by simp), ?_, ?_, ?_⟩ <;>
    rw [lookupStore_replace_ok s1 k [a2, b] _ (replace_nonempty_ok s1 k [a2, b] (by simp))]
  · simp
  · intro u hu
    simpa using hu

/-- Witness for C2: store `{a}` then replace with `{a2, b}` concretely. -/
theorem valid_reingest_supersedes_witness :
    ∃ s2, Replace ⟨[(("m", "v1.0.0"),
        [(⟨"m/foo", "foo", 0, true, "gh", [], none, none⟩ : UnitRecord)])]⟩
      ("m", "v1.0.0")
      [⟨"m/foo", "foo", 1, true, "gh", [], none, none⟩,
       ⟨"m/bar", "bar", 1, true, "gh", [⟨["MIT"], "LICENSE"⟩],
         some ⟨"README.md", "This is a readme"⟩,
         some ⟨"Package bar", "b", "linux", "amd64"⟩⟩] = .ok s2 ∧
      lookupStore s2 ("m", "v1.0.0") =
        some [⟨"m/foo", "foo", 1, true, "gh", [], none, none⟩,
          ⟨"m/bar", "bar", 1, true, "gh", [⟨["MIT"], "LICENSE"⟩],
            some ⟨"README.md", "This is a readme"⟩,
            some ⟨"Package bar", "b", "linux", "amd64"⟩⟩] ∧
      (⟨"m/bar", "bar", 1, true, "gh", [⟨["MIT"], "LICENSE"⟩],
        some ⟨"README.md", "This is a readme"⟩,
        some ⟨"Package bar", "b", "linux", "amd64"⟩⟩ : UnitRecord) ∈
        (lookupStore s2 ("m", "v1.0.0")).getD [] ∧
      ∀ u ∈ (lookupStore s2 ("m", "v1.0.0")).getD [],
        u = ⟨"m/foo", "foo", 1, true, "gh", [], none, none⟩ ∨
        u = ⟨"m/bar", "bar", 1, true, "gh", [⟨["MIT"], "LICENSE"⟩],
          some ⟨"README.md", "This is a readme"⟩,
          some ⟨"Package bar", "b", "linux", "amd64"⟩⟩ :=
  valid_reingest_supersedes ⟨[]⟩ _ ("m", "v1.0.0")
    ⟨"m/foo", "foo", 0, true, "gh", [], none, none⟩ _ _ rfl

/-- C3: retraction is an inclusive range check under semantic-version
ordering — for a directive `r`, a version is retracted exactly when
`Compare v r.Low ≥ 0` and `Compare v r.High ≤ 0`; a directive with
`Low = High` matches exactly the versions semver-equal to it; the literal
directive `[v1.0.0, v1.2.0]` with rationale "bug" retracts `v1.2.0` with
rationale "bug" but not `v1.2.1`; and the ordering is not lexical: `v1.9.0`
lies in `[v1.2.0, v1.10.0]` although it is lexically greater than
`v1.10.0`. -/
theorem retraction_inclusive_semver_range :
    (∀ (M : Option ModuleDecl) (r : Retract) (v : String),
        (isRetracted ⟨M, [r]⟩ v).1 = true ↔
          (semver.Compare v r.Low ≥ 0 ∧ semver.Compare v r.High ≤ 0)) ∧
    (∀ (M : Option ModuleDecl) (r : Retract) (v : String), r.Low = r.High →
        ((isRetracted ⟨M, [r]⟩ v).1 = true ↔ semver.Compare v r.Low = 0)) ∧
    isRetracted ⟨none, [⟨"v1.0.0", "v1.2.0", "bug"⟩]⟩ "v1.2.0" = (true, "bug") ∧
    isRetracted ⟨none, [⟨"v1.0.0", "v1.2.0", "bug"⟩]⟩ "v1.2.1" = (false, "") ∧
    isRetracted ⟨none, [⟨"v1.2.0", "v1.10.0", "fix"⟩]⟩ "v1.9.0" = (true, "fix") ∧
    ltChars "v1.9.0".toList "v1.10.0".toList = false := by
  have base : ∀ (M : Option ModuleDecl) (r : Retract) (v : String),
      (isRetracted ⟨M, [r]⟩ v).1 = true ↔
        (semver.Compare v r.Low ≥ 0 ∧ semver.Compare v r.High ≤ 0) := by
    intro M r v
    by_cases h : inRange v r
    · simp only [isRetracted, findRetract, if_pos h]
      exact iff_of_true (by simp) h
    · simp only [isRetracted, findRetract, if_neg h]
      exact iff_of_false (by simp) h
  refine ⟨base, fun M r v hlh => ?_, by decide, by decide, by decide, by decide⟩
  rw [base M r v, hlh]
  omega

/-- Witness for C3's single-version conjunct at a concrete directive with
`Low = High`. -/
theorem retraction_inclusive_semver_range_witness :
    (isRetracted ⟨none, [⟨"v1.1.0", "v1.1.0", "only"⟩]⟩ "v1.1.0").1 = true ↔
      semver.Compare "v1.1.0" "v1.1.0" = 0 :=
  retraction_inclusive_semver_range.2.1 none ⟨"v1.1.0", "v1.1.0", "only"⟩ "v1.1.0" rfl

/-- C4: deprecation detection scans the comments before the module
declaration and the trailing comments on its line, in file order; the first
comment whose stripped and trimmed text starts with `Deprecated:` yields
`(true, trimmed text after the marker)` and later matching comments are
ignored; with no matching comment it yields `(false, "")`; and the literal
comment `// Deprecated: use baz instead` yields
`(true, "use baz instead")`. -/
theorem deprecation_first_marked_comment :
    (∀ (mf : File) (m : ModuleDecl) (pre : List Comment) (c : Comment)
        (post : List Comment),
        mf.Module = some m →
        m.SyntaxLine.Before ++ m.SyntaxLine.Suffix = pre ++ c :: post →
        (∀ c' ∈ pre, deprecatedMarker.isPrefixOf (commentText c') = false) →
        deprecatedMarker.isPrefixOf (commentText c) = true →
        isDeprecated mf =
          (true, String.mk (trimSpace ((commentText c).drop deprecatedMarker.length)))) ∧
    (∀ (mf : File) (m : ModuleDecl), mf.Module = some m →
        (∀ c ∈ m.SyntaxLine.Before ++ m.SyntaxLine.Suffix,
          deprecatedMarker.isPrefixOf (commentText c) = false) →
        isDeprecated mf = (false, "")) ∧
    isDeprecated ⟨some ⟨⟨[⟨"// Deprecated: use baz instead"⟩], []⟩⟩, []⟩ =
      (true, "use baz instead") ∧
    isDeprecated ⟨some ⟨⟨[⟨"// just a note"⟩], []⟩⟩, []⟩ = (false, "") := by
  refine ⟨?_, ?_, by decide, by decide⟩
  · intro mf m pre c post hm hsplit hpre hc
    rw [isDeprecated, hm]
    dsimp only
    rw [hsplit]
    exact findDeprecated_first pre c post hpre hc
  · intro mf m hm hnone
    rw [isDeprecated, hm]
    dsimp only
    exact findDeprecated_of_no_match _ hnone

/-- Witness for C4's first-match conjunct: a non-matching comment first,
then a matching one, then a later matching one that is ignored. -/
theorem deprecation_first_marked_comment_witness :
    isDeprecated ⟨some ⟨⟨[⟨"// a note"⟩, ⟨"// Deprecated: first reason"⟩],
        [⟨"// Deprecated: second reason"⟩]⟩⟩, []⟩ =
      (true, String.mk (trimSpace
        ((commentText ⟨"// Deprecated: first reason"⟩).drop deprecatedMarker.length))) :=
  deprecation_first_marked_comment.1
    ⟨some ⟨⟨[⟨"// a note"⟩, ⟨"// Deprecated: first reason"⟩],
      [⟨"// Deprecated: second reason"⟩]⟩⟩, []⟩
    ⟨⟨[⟨"// a note"⟩, ⟨"// Deprecated: first reason"⟩],
      [⟨"// Deprecated: second reason"⟩]⟩⟩
    [⟨"// a note"⟩] ⟨"// Deprecated: first reason"⟩ [⟨"// Deprecated: second reason"⟩]
    rfl rfl (by decide) (by decide)

/-- C5: with two or more (possibly overlapping) retract directives matching
the resolved version, the result is `(true, rationale)` of the first
matching directive in file order. -/
theorem retraction_first_directive_rationale (mf : File) (v : String)
    (pre : List Retract) (r : Retract) (post : List Retract)
    (hs : mf.Retract = pre ++ r :: post)
    (hpre : ∀ r' ∈ pre, ¬ inRange v r') (hr : inRange v r)
    (hmulti : ∃ r' ∈ post, inRange v r') :
    isRetracted mf v = (true, r.Rationale) := by
  rw [isRetracted, hs]
  exact findRetract_first v pre r post hpre hr

/-- Witness for C5 at two concrete overlapping directives both containing
`v1.3.0`. -/
theorem retraction_first_directive_rationale_witness :
    isRetracted ⟨none, [⟨"v1.0.0", "v1.5.0", "first"⟩,
        ⟨"v1.2.0", "v2.0.0", "second"⟩]⟩ "v1.3.0" = (true, "first") :=
  retraction_first_directive_rationale _ "v1.3.0"
    [] ⟨"v1.0.0", "v1.5.0", "first"⟩ [⟨"v1.2.0", "v2.0.0", "second"⟩]
    rfl (by decide) (by decide) (by decide)

/-- C6: the lifecycle analysis is a total (hence pure and never-failing)
function of the manifest and the resolved version; absent data yields the
not-deprecated/not-retracted default, and in particular a manifest with no
module declaration node yields `(false, "")` for deprecation. -/
theorem lifecycle_total_defaults :
    (∀ (mf : File) (v : String), mf.Module = none →
        (AnalyzeLifecycle mf v).deprecated = false ∧
        (AnalyzeLifecycle mf v).deprecationReason = "") ∧
    (∀ (mf : File) (v : String), mf.Retract = [] →
        (AnalyzeLifecycle mf v).retracted = false ∧
        (AnalyzeLifecycle mf v).retractionReason = "") ∧
    (∀ v : String, AnalyzeLifecycle ⟨none, []⟩ v = ⟨false, "", false, ""⟩) := by
  refine ⟨?_, ?_, fun v => rfl⟩
  · intro mf v hm
    constructor <;> simp [AnalyzeLifecycle, isDeprecated, hm]
  · intro mf v hr
    constructor <;> simp [AnalyzeLifecycle, isRetracted, hr, findRetract]

/-- Witness for C6 at a manifest with no module declaration and no retract
directives. -/
theorem lifecycle_total_defaults_witness :
    (AnalyzeLifecycle ⟨none, []⟩ "v1.0.0").deprecated = false ∧
    (AnalyzeLifecycle ⟨none, []⟩ "v1.0.0").deprecationReason = "" :=
  lifecycle_total_defaults.1 ⟨none, []⟩ "v1.0.0" rfl

/-- C7: the "insert invalid" condition is a distinguished error value:
kind comparison (the model of `errors.Is`) identifies it, and it is
distinct from the transport-failure, parse-failure and storage-failure
kinds. -/
theorem validation_sentinel_distinguished :
    errorIs IngestError.ValidationRejected IngestError.ValidationRejected = true ∧
    errorIs IngestError.FetchFailed IngestError.ValidationRejected = false ∧
    errorIs IngestError.ExtractionFailed IngestError.ValidationRejected = false ∧
    errorIs IngestError.StorageUnavailable IngestError.ValidationRejected = false ∧
    IngestError.ValidationRejected ≠ IngestError.FetchFailed ∧
    IngestError.ValidationRejected ≠ IngestError.ExtractionFailed ∧
    IngestError.ValidationRejected ≠ IngestError.StorageUnavailable := by
  decide

/-- C8: the lifecycle computation is idempotent — `PopulateModule` applied
twice with the same raw-latest info equals one application — and storing
the same valid candidate set again leaves the stored state identical. -/
theorem lifecycle_and_replace_idempotent :
    (∀ (r : RawLatestInfo) (m : Module),
        PopulateModule r (PopulateModule r m) = PopulateModule r m) ∧
    (∀ (mf : File) (v : String),
        AnalyzeLifecycle mf v = AnalyzeLifecycle mf v) ∧
    (∀ (s : VersionStore) (k : StoreKey) (c : List UnitRecord) (s1 : VersionStore),
        Replace s k c = .ok s1 → Replace s1 k c = .ok s1) := by
  exact ⟨fun r m => rfl, fun mf v => rfl, replace_idem_aux⟩

/-- Witness for C8's replace conjunct: re-storing the same unit set for the
same key leaves the concrete store identical. -/
theorem lifecycle_and_replace_idempotent_witness :
    Replace ⟨[(("m", "v1.0.0"),
        [(⟨"m/foo", "foo", 0, true, "gh", [], none, none⟩ : UnitRecord)])]⟩
      ("m", "v1.0.0")
      [⟨"m/foo", "foo", 0, true, "gh", [], none, none⟩] =
      .ok ⟨[(("m", "v1.0.0"),
        [(⟨"m/foo", "foo", 0, true, "gh", [], none, none⟩ : UnitRecord)])]⟩ :=
  lifecycle_and_replace_idempotent.2.2 ⟨[]⟩ ("m", "v1.0.0")
    [⟨"m/foo", "foo", 0, true, "gh", [], none, none⟩] _ rfl

/-- C9: `PopulateModule` writes only the four lifecycle fields; every other
field of the module is unchanged. -/
theorem populate_module_frame (r : RawLatestInfo) (m : Module) :
    (PopulateModule r m).ModulePath = m.ModulePath ∧
    (PopulateModule r m).Version = m.Version ∧
    (PopulateModule r m).CommitTime = m.CommitTime ∧
    (PopulateModule r m).IsRedistributable = m.IsRedistributable ∧
    (PopulateModule r m).HasGoMod = m.HasGoMod ∧
    (PopulateModule r m).Units = m.Units :=
  ⟨rfl, rfl, rfl, rfl, rfl, rfl⟩

/-- C10: `PopulateModule` takes the deprecation comments and retract
directives from the raw-latest go.mod file but evaluates retraction at the
populated module's own version; the raw-latest version field plays no role. -/
theorem populate_module_uses_module_version (r : RawLatestInfo) (m : Module) :
    ((PopulateModule r m).Retracted, (PopulateModule r m).RetractionRationale) =
      isRetracted r.GoModFile m.Version ∧
    ((PopulateModule r m).Deprecated, (PopulateModule r m).DeprecationComment) =
      isDeprecated r.GoModFile ∧
    (∀ v2 : String, PopulateModule ⟨r.ModulePath, v2, r.GoModFile⟩ m =
      PopulateModule r m) :=
  ⟨rfl, rfl, fun v2 => rfl⟩

end Pkgsite
